import Mathlib

set_option maxRecDepth 8192

/-!
Shallow embedding of src/src/scraping/scrape_reviews_selenium.py: the
pagination-and-extraction engine of the review harvester (class Scraper and
its module-level helpers). Pure string manipulation is translated directly.
The rendered page, the selenium driver and the faults it can raise are
modelled as explicit environment data consumed by each run: every element
query is a field holding what the driver would have answered, with none
standing for a raised lookup, and every driver-level fault point is a
boolean flag of the environment.
-/

namespace Scrape

/-- Leading whitespace of a character list, dropped. -/
def dropLeadingWs : List Char → List Char
  | [] => []
  | c :: t => if c.isWhitespace then dropLeadingWs t else c :: t

/-- Python str.strip, restricted to ASCII whitespace: drop leading and
trailing whitespace characters. -/
def pyStrip (s : String) : String :=
  String.mk ((dropLeadingWs (dropLeadingWs s.toList).reverse).reverse)

/-- Worker of the whitespace split: walk the characters accumulating the
current run in reverse, emitting a word at each whitespace boundary. -/
def pySplitChars : List Char → List Char → List String
  | [], acc => if acc.isEmpty then [] else [String.mk acc.reverse]
  | c :: t, acc =>
    if c.isWhitespace then
      if acc.isEmpty then pySplitChars t []
      else String.mk acc.reverse :: pySplitChars t []
    else pySplitChars t (c :: acc)

/-- Python str.split with no argument: the maximal whitespace-free runs, in
order, with no empty pieces. -/
def pySplit (s : String) : List String := pySplitChars s.toList []

/-- Python str.replace for a single-character pattern and replacement. -/
def pyReplaceChar (s : String) (c r : Char) : String :=
  String.mk (s.toList.map (fun a => if a = c then r else a))

/-- Python sep.join on a list of strings. -/
def pyJoin (sep : String) : List String → String
  | [] => ""
  | [w] => w
  | w :: v :: rest => w ++ sep ++ pyJoin sep (v :: rest)

/-- Python prefix slicing by characters. -/
def pyTake (s : String) (n : Nat) : String := String.mk (s.toList.take n)

/-- Python str.lower, per character. -/
def pyLower (s : String) : String := String.mk (s.toList.map Char.toLower)

/-- Python substring membership of needle in a character-list haystack. -/
def listContains (needle : List Char) : List Char → Bool
  | [] => needle.isEmpty
  | c :: t => needle.isPrefixOf (c :: t) || listContains needle t

/-- Python substring membership needle in hay, on strings. -/
def strContains (hay needle : String) : Bool :=
  listContains needle.toList hay.toList

/-- Python str.isdigit, restricted to ASCII digits. -/
def pyIsDigit (s : String) : Bool :=
  !s.isEmpty && s.toList.all (fun c => c.isDigit)

/-- Python int on a string of ASCII digits. -/
def digitsToNat (s : String) : Nat :=
  s.toList.foldl (fun n c => 10 * n + (c.toNat - 48)) 0

/-- clean_review_text from the source: replace CR, LF and TAB by spaces,
collapse whitespace runs to single spaces, strip the ends. -/
def clean_review_text (text : String) : String :=
  if text = "" then ""
  else
    let t := pyReplaceChar (pyReplaceChar (pyReplaceChar text '\r' ' ')
      '\n' ' ') '\t' ' '
    let t := pyJoin " " (pySplit t)
    pyStrip t

/-- One rendered review block, as the drivers answers to the queries
Scraper.parse_review_block issues against it. A list entry is the outcome of
one selector of the corresponding fixed selector list, in source order;
none stands for a find_element call that raised. -/
structure Block where
  /-- First read of the four body-text selectors div.text, div.review-text,
  .text.readability, .review-content. -/
  textPass1 : List (Option String)
  /-- Re-read of the same four selectors after the targeted expansion. -/
  textPass2 : List (Option String)
  /-- innerText of the four score selectors div.score, span.score, .rating, .num. -/
  scoreTexts : List (Option String)
  /-- Whether the find_elements call for tag elements raised. -/
  tagsRaise : Bool
  /-- Texts of the located tag elements, in page order. -/
  tagTexts : List String
  /-- The four date selectors .update_at, .update_on, .review-date and the
  sibling fallback. -/
  dateTexts : List (Option String)
deriving DecidableEq

/-- One parsed review row, the dict parse_review_block returns. The empty
string plays the absent value for recommendation and review_date, as in the
source. -/
structure Row where
  review_text : String
  user_score : Option Nat
  recommendation : String
  review_date : String
deriving DecidableEq

/-- First pass over the body selectors: the first stripped non-empty text
wins, the empty string when every selector raises or strips to empty. -/
def first_pass_text : List (Option String) → String
  | [] => ""
  | none :: rest => first_pass_text rest
  | some raw :: rest =>
    let t := pyStrip raw
    if t ≠ "" then t else first_pass_text rest

/-- The truncation heuristic of parse_review_block: empty text, or a
truncation marker in a text under 400 characters, or a text under 120
characters. -/
def needs_expand (t : String) : Bool :=
  (t == "") || (strContains t "..." && decide (t.length < 400)) ||
    decide (t.length < 120)

/-- Re-read of the body selectors after the targeted expansion: the first
candidate strictly longer than the current text replaces it, anything else
is skipped. -/
def reread_text (cands : List (Option String)) (cur : String) : String :=
  match cands with
  | [] => cur
  | none :: rest => reread_text rest cur
  | some raw :: rest =>
    if cur.length < (pyStrip raw).length then pyStrip raw else reread_text rest cur

/-- The body text parse_review_block settles on: first pass, then the
expansion re-read when the truncation heuristic fires. -/
def body_text (b : Block) : String :=
  let t := first_pass_text b.textPass1
  if needs_expand t then reread_text b.textPass2 t else t

/-- Scan of the whitespace-split tokens of one score element: the first
ASCII-digit token whose value lies in 1..10 wins, out-of-range digit tokens
are skipped. -/
def first_score_tok : List String → Option Nat
  | [] => none
  | tok :: rest =>
    if pyIsDigit tok then
      let val := digitsToNat tok
      if 1 ≤ val ∧ val ≤ 10 then some val else first_score_tok rest
    else first_score_tok rest

/-- Scan of the score selectors: per selector, strip the innerText and scan
its tokens; the first selector yielding an in-range token wins. -/
def scan_score : List (Option String) → Option Nat
  | [] => none
  | none :: rest => scan_score rest
  | some raw :: rest =>
    match first_score_tok (pySplit (pyStrip raw)) with
    | some val => some val
    | none => scan_score rest

/-- Scan of the tag elements: the first non-empty stripped text containing
one of the three fixed phrases decides the field, checking the phrases in the
fixed order Not Recommended, Mixed Feelings, Recommended. -/
def scan_tags : List String → String
  | [] => ""
  | raw :: rest =>
    let t := pyStrip raw
    if t = "" then scan_tags rest
    else if strContains t "Not Recommended" then "Not Recommended"
    else if strContains t "Mixed Feelings" then "Mixed Feelings"
    else if strContains t "Recommended" then "Recommended"
    else scan_tags rest

/-- Scan of the date selectors: the first stripped non-empty text wins. -/
def scan_date : List (Option String) → String
  | [] => ""
  | none :: rest => scan_date rest
  | some raw :: rest =>
    let dt := pyStrip raw
    if dt ≠ "" then dt else scan_date rest

/-- Scraper.parse_review_block: extract the body text with the expansion
retry, reject the block when the text is empty or under 50 characters, then
clean the text and extract score, recommendation tag and date. -/
def parse_review_block (b : Block) : Option Row :=
  let t := body_text b
  if t = "" ∨ t.length < 50 then none
  else
    some { review_text := clean_review_text t
           user_score := scan_score b.scoreTexts
           recommendation := if b.tagsRaise then "" else scan_tags b.tagTexts
           review_date := scan_date b.dateTexts }

/-- One More-Reviews anchor as _goto_next_page observes it: whether it is
displayed, and whether the scroll script, the primary click and the script
click raise on it. -/
structure LinkEl where
  displayed : Bool
  scrollRaise : Bool
  clickRaise : Bool
  jsClickRaise : Bool
deriving DecidableEq

/-- Environment of one _goto_next_page call: whether the find_elements call
for More-Reviews links raises, the located links, and whether the fallback
driver.get raises. -/
structure GotoEnv where
  findLinksRaise : Bool
  links : List LinkEl
  fallbackRaise : Bool
deriving DecidableEq

/-- The link branch of _goto_next_page: walk the links, skip the hidden
ones, attempt the first displayed one. The attempt succeeds when the scroll
script does not raise and either the primary click or the script click goes
through; any raise falls out of the enclosing try to the URL fallback. -/
def click_first_displayed : List LinkEl → Bool
  | [] => false
  | a :: rest =>
    if a.displayed then !a.scrollRaise && (!a.clickRaise || !a.jsClickRaise)
    else click_first_displayed rest

/-- Scraper._goto_next_page: try the displayed More-Reviews control first;
on any failure there, fall back to navigating to reviews_url with the page
parameter set to page+1. The fallback driver.get is the one call whose
raise escapes to the caller, modelled as the error case. -/
def goto_next_page (g : GotoEnv) (reviews_url : String) (page : Nat) :
    Except Unit (Bool × Nat) :=
  if !g.findLinksRaise && click_first_displayed g.links then .ok (true, page + 1)
  else if g.fallbackRaise then .error () else .ok (true, page + 1)

/-- One rendered listing page as the harvester iteration observes it: a
fault flag for the expansion-and-lookup phase of the iteration, the result
of each of the four block-discovery XPath queries of _find_review_blocks in
source order, and the pagination environment of the iteration. -/
structure PageEnv where
  /-- Whether an unhandled driver fault occurs in this iteration before the
  located blocks are consumed (click_all_read_more or find_elements raising). -/
  bodyRaise : Bool
  q1 : List Block
  q2 : List Block
  q3 : List Block
  q4 : List Block
  goto : GotoEnv

/-- First non-empty query result, in query order; empty when all are empty. -/
def first_non_empty {α : Type} : List (List α) → List α
  | [] => []
  | xs :: rest => if xs.isEmpty then first_non_empty rest else xs

/-- Scraper._find_review_blocks: evaluate the four XPath queries in order
and return the result of the first one that located at least one element,
the empty list when none did. -/
def find_review_blocks (pe : PageEnv) : List Block :=
  first_non_empty [pe.q1, pe.q2, pe.q3, pe.q4]

/-- Scraper._entity_for: the fixed series-to-entity dictionary, defaulting
to the series name itself. -/
def entity_for (series_name : String) : String :=
  (([("Naruto", "Naruto"), ("Naruto Shippuden", "Naruto"),
     ("One Piece", "One Piece"), ("Bleach", "Bleach"),
     ("Bleach TYBW Part 1", "Bleach"), ("Bleach TYBW Part 2", "Bleach")] :
    List (String × String)).lookup series_name).getD series_name

/-- Scraper._mal_id_for: the fixed series-to-id dictionary, defaulting to 0. -/
def mal_id_for (series_name : String) : Nat :=
  (([("Naruto", 20), ("Naruto Shippuden", 1735), ("One Piece", 21),
     ("Bleach", 269), ("Bleach TYBW Part 1", 41467),
     ("Bleach TYBW Part 2", 41468)] :
    List (String × Nat)).lookup series_name).getD 0

/-- Scraper._review_id: lowercased, underscored series name, an underscore,
then the digest of the series name concatenated with the first 120
characters of the review text. The digest function (sha1 hexdigest cut to
10 characters in the source) is passed in as an arbitrary function of the
hashed string. -/
def review_id (digest : String → String) (series_name review_text : String) :
    String :=
  (pyReplaceChar (pyLower series_name) ' ' '_') ++ "_" ++
    digest (series_name ++ pyTake review_text 120)

/-- One accumulated review record: the parsed row plus the fields
scrape_reviews_for_series adds before appending. -/
structure Record where
  review_text : String
  user_score : Option Nat
  recommendation : String
  review_date : String
  entity : String
  series_component : String
  series_id : Nat
  review_id : String
  page_number : Nat
deriving DecidableEq

/-- The row.update step of scrape_reviews_for_series: enrich a parsed row
with entity, series component, series id, review id and page number. -/
def mk_record (digest : String → String) (series_name : String) (page : Nat)
    (row : Row) : Record :=
  { review_text := row.review_text
    user_score := row.user_score
    recommendation := row.recommendation
    review_date := row.review_date
    entity := entity_for series_name
    series_component := series_name
    series_id := mal_id_for series_name
    review_id := review_id digest series_name row.review_text
    page_number := page }

/-- The block-consumption loop of one page: walk the located blocks, stop
before parsing another block once the accumulated count has reached the
target, skip blocks that parse to nothing, append the enriched record
otherwise. -/
def consume_blocks (digest : String → String) (series_name : String)
    (page target : Nat) : List Block → List Record → List Record
  | [], reviews => reviews
  | b :: rest, reviews =>
    if target ≤ reviews.length then reviews
    else
      match parse_review_block b with
      | none => consume_blocks digest series_name page target rest reviews
      | some row =>
        consume_blocks digest series_name page target rest
          (reviews ++ [mk_record digest series_name page row])

/-- Why a harvest run ended, classifying the exit paths of
scrape_reviews_for_series: the while guard failing on the count, the while
guard failing on the page cap, the empty-page-streak break, and every path
through the except clause or the not-ok pagination break. -/
inductive StopReason where
  | targetReached
  | maxPagesReached
  | emptyPageStreak
  | sessionError
deriving DecidableEq

/-- Outcome of one harvest run: the returned records, the exit-path
classification, and whether driver.quit ran, which the finally block makes
true on every path. -/
structure HarvestResult where
  records : List Record
  reason : StopReason
  sessionClosed : Bool
deriving DecidableEq

/-- The empty-page-streak cap MAX_EMPTY_PAGES of the source. -/
def MAX_EMPTY_PAGES : Nat := 12

/-- The page cap MAX_PAGES of the source. -/
def MAX_PAGES : Nat := 120

/-- Full driver environment of one run: whether the page-1 priming raises,
and the page observed at each page number. Pages are indexed by the page
counter, which never repeats within a run. -/
structure Env where
  initRaise : Bool
  pages : Nat → PageEnv

/-- The reason attached to an exit through the while guard: the count
conjunct failing is the target-reached exit, otherwise the page cap fell. -/
def guard_reason (target : Nat) (reviews : List Record) : StopReason :=
  if target ≤ reviews.length then .targetReached else .maxPagesReached

/-- The while loop of scrape_reviews_for_series, fuel-indexed: none only
when the fuel runs out with the guard still true, which never happens with
fuel MAX_PAGES + 1 since the page counter grows every iteration. Each
iteration expands and locates blocks, counts an empty page against the
streak cap, consumes located blocks up to the target, and advances the
page; every unhandled driver raise exits through the except clause with the
records accumulated so far, and driver.quit runs on every exit. -/
def scrape_loop (env : Env) (digest : String → String)
    (series_name reviews_url : String) (target : Nat) :
    Nat → List Record → Nat → Nat → Option HarvestResult
  | 0, reviews, page, _ =>
    if reviews.length < target ∧ page ≤ MAX_PAGES then none
    else some ⟨reviews, guard_reason target reviews, true⟩
  | fuel + 1, reviews, page, consecutive_empty =>
    if reviews.length < target ∧ page ≤ MAX_PAGES then
      let pe := env.pages page
      if pe.bodyRaise then some ⟨reviews, .sessionError, true⟩
      else
        let blocks := find_review_blocks pe
        if blocks.isEmpty then
          if MAX_EMPTY_PAGES ≤ consecutive_empty + 1 then
            some ⟨reviews, .emptyPageStreak, true⟩
          else
            match goto_next_page pe.goto reviews_url page with
            | .error _ => some ⟨reviews, .sessionError, true⟩
            | .ok (okb, page') =>
              if okb then
                scrape_loop env digest series_name reviews_url target fuel
                  reviews page' (consecutive_empty + 1)
              else some ⟨reviews, .sessionError, true⟩
        else
          let reviews' := consume_blocks digest series_name page target blocks reviews
          if target ≤ reviews'.length then some ⟨reviews', .targetReached, true⟩
          else
            match goto_next_page pe.goto reviews_url page with
            | .error _ => some ⟨reviews', .sessionError, true⟩
            | .ok (okb, page') =>
              if okb then
                scrape_loop env digest series_name reviews_url target fuel
                  reviews' page' 0
              else some ⟨reviews', .sessionError, true⟩
    else some ⟨reviews, guard_reason target reviews, true⟩

/-- Scraper.scrape_reviews_for_series: page-1 priming, then the paging loop
from page 1 with no records and no streak. A raise during priming exits
through the except clause with the empty record list. The fuel
MAX_PAGES + 1 is an upper bound on the iterations the guard admits. -/
def scrape_reviews_for_series (env : Env) (digest : String → String)
    (series_name reviews_url : String) (target_reviews : Nat) :
    Option HarvestResult :=
  if env.initRaise then some ⟨[], .sessionError, true⟩
  else scrape_loop env digest series_name reviews_url target_reviews
    (MAX_PAGES + 1) [] 1 0

/-- A quiet page yields no blocks and raises nothing the iteration can
trip on. -/
def quiet_page (pe : PageEnv) : Prop :=
  pe.bodyRaise = false ∧ find_review_blocks pe = [] ∧
    pe.goto.fallbackRaise = false

/-! ## Concrete inputs used to instantiate the theorems -/

/-- Sixty x characters: a plain body text comfortably past every gate. -/
def plainText60 : String := String.mk (List.replicate 60 'x')

/-- A block whose only body read is the plain 60-character text. -/
def goodBlock : Block := ⟨[some plainText60], [], [], false, [], []⟩

/-- A 52-character body text whose interior is 50 spaces: long enough for
the 50-character gate, collapsed to 3 characters by the cleaning step. -/
def gappyText : String := String.mk ('a' :: (List.replicate 50 ' ' ++ ['b']))

/-- A block whose only body read is the gappy text. -/
def gappyBlock : Block := ⟨[some gappyText], [], [], false, [], []⟩

/-- The truncated 13-character body of the expansion scenario. -/
def truncatedText : String := "Great show..."

/-- The 600-character body revealed by the expansion. -/
def expandedText : String := String.mk (List.replicate 600 'x')

/-- A block reading the truncated text first and the expanded text on the
re-read after expansion. -/
def truncBlock : Block := ⟨[some truncatedText], [some expandedText], [], false, [], []⟩

/-- A pagination environment with no links whose fallback navigation raises. -/
def gotoRaise : GotoEnv := ⟨false, [], true⟩

/-- A pagination environment with no links whose fallback navigation works. -/
def gotoOk : GotoEnv := ⟨false, [], false⟩

/-- A page whose first query finds the single plain block; its pagination
raises. -/
def pageOneGood : PageEnv := ⟨false, [goodBlock], [], [], [], gotoRaise⟩

/-- A page whose first query finds the single gappy block. -/
def pageGappy : PageEnv := ⟨false, [gappyBlock], [], [], [], gotoRaise⟩

/-- A page on which the pre-consumption phase of the iteration raises. -/
def pageFault : PageEnv := ⟨true, [], [], [], [], gotoOk⟩

/-- A run whose page-1 priming raises. -/
def envInitRaise : Env := ⟨true, fun _ => pageOneGood⟩

/-- A run that sees the plain block on every page. -/
def envOneGood : Env := ⟨false, fun _ => pageOneGood⟩

/-- A run that sees the gappy block on every page. -/
def envGappy : Env := ⟨false, fun _ => pageGappy⟩

/-- A run that faults at the head of every iteration. -/
def envFault : Env := ⟨false, fun _ => pageFault⟩

/-- A constant digest standing in for the sha1 call in concrete runs. -/
def digest0 : String → String := fun _ => "h"

/-- The record the plain block becomes on page 1 of a Naruto run. -/
def goodRecord : Record :=
  { review_text := plainText60, user_score := none, recommendation := ""
    review_date := "", entity := "Naruto", series_component := "Naruto"
    series_id := 20, review_id := "naruto_h", page_number := 1 }

/-- The record the gappy block becomes on page 1 of a Naruto run: its
stored review text is the 3-character cleaning of the 52-character body. -/
def gappyRecord : Record :=
  { review_text := "a b", user_score := none, recommendation := ""
    review_date := "", entity := "Naruto", series_component := "Naruto"
    series_id := 20, review_id := "naruto_h", page_number := 1 }

/-- A 128-character text: 120 a characters and one tail. -/
def longTextA : String := String.mk (List.replicate 120 'a') ++ "tail one"

/-- A text agreeing with the previous one on its first 120 characters and
differing beyond them. -/
def longTextB : String := String.mk (List.replicate 120 'a') ++ "other tail"

/-! ## Helper lemmas about pagination -/

/-- Any value goto_next_page returns without raising is the pair of true
and the incremented page. -/
theorem goto_ok_eq (g : GotoEnv) (u : String) (p : Nat) (b : Bool) (q : Nat)
    (h : goto_next_page g u p = .ok (b, q)) : b = true ∧ q = p + 1 := by
  unfold goto_next_page at h
  split_ifs at h <;> simp_all

/-- When the fallback navigation does not raise, goto_next_page returns
true and the incremented page. -/
theorem goto_no_fallback (g : GotoEnv) (u : String) (p : Nat)
    (h : g.fallbackRaise = false) :
    goto_next_page g u p = .ok (true, p + 1) := by
  unfold goto_next_page
  split_ifs <;> simp_all

/-! ## Helper lemmas about block consumption -/

/-- Block consumption never grows the accumulator beyond the target. -/
theorem consume_blocks_le (digest : String → String) (series_name : String)
    (page target : Nat) (blocks : List Block) (reviews : List Record)
    (h : reviews.length ≤ target) :
    (consume_blocks digest series_name page target blocks reviews).length ≤ target := by
  induction blocks generalizing reviews with
  | nil => simpa [consume_blocks] using h
  | cons b rest ih =>
    rw [consume_blocks]
    split_ifs with hfull
    · exact h
    · cases hp : parse_review_block b with
      | none => exact ih reviews h
      | some row =>
        exact ih _ (by simp; omega)

/-- Block consumption only appends: the incoming accumulator is an initial
segment of the outcome. -/
theorem consume_blocks_append (digest : String → String) (series_name : String)
    (page target : Nat) (blocks : List Block) (reviews : List Record) :
    ∃ t, consume_blocks digest series_name page target blocks reviews =
      reviews ++ t := by
  induction blocks generalizing reviews with
  | nil => exact ⟨[], by simp [consume_blocks]⟩
  | cons b rest ih =>
    rw [consume_blocks]
    split_ifs with hfull
    · exact ⟨[], by simp⟩
    · cases hp : parse_review_block b with
      | none => exact ih reviews
      | some row =>
        obtain ⟨t, ht⟩ := ih (reviews ++ [mk_record digest series_name page row])
        exact ⟨mk_record digest series_name page row :: t, by simp [ht]⟩

/-- A row parse_review_block accepts carries the cleaning of a body text
that passed the 50-character gate. -/
theorem parse_some_body (b : Block) (row : Row)
    (h : parse_review_block b = some row) :
    50 ≤ (body_text b).length ∧
      row.review_text = clean_review_text (body_text b) := by
  unfold parse_review_block at h
  by_cases hg : body_text b = "" ∨ (body_text b).length < 50
  · rw [if_pos hg] at h
    exact absurd h (by simp)
  · rw [if_neg hg] at h
    push_neg at hg
    refine ⟨hg.2, ?_⟩
    have hr := congrArg Row.review_text (Option.some.inj h)
    simpa using hr.symm

/-- Every record block consumption adds is the cleaning of a body text of
at least 50 characters. -/
theorem consume_blocks_body (digest : String → String) (series_name : String)
    (page target : Nat) (blocks : List Block) (reviews : List Record)
    (rec : Record)
    (hmem : rec ∈ consume_blocks digest series_name page target blocks reviews) :
    rec ∈ reviews ∨
      ∃ raw, 50 ≤ raw.length ∧ rec.review_text = clean_review_text raw := by
  induction blocks generalizing reviews with
  | nil => exact Or.inl (by simpa [consume_blocks] using hmem)
  | cons b rest ih =>
    rw [consume_blocks] at hmem
    split_ifs at hmem with hfull
    · exact Or.inl hmem
    · cases hp : parse_review_block b with
      | none => rw [hp] at hmem; exact ih reviews hmem
      | some row =>
        rw [hp] at hmem
        rcases ih _ hmem with hin | hnew
        · rcases List.mem_append.mp hin with hold | hthis
          · exact Or.inl hold
          · refine Or.inr ?_
            obtain ⟨h50, hclean⟩ := parse_some_body b row hp
            simp at hthis
            exact ⟨body_text b, h50, by rw [hthis]; exact hclean⟩
        · exact Or.inr hnew

/-! ## Helper lemmas about the paging loop -/

/-- The reason attached to a guard exit is the target-reached reason exactly
when the accumulated count equals the target, given that the count never
exceeds the target. -/
theorem guard_reason_tr_iff (target : Nat) (reviews : List Record)
    (hle : reviews.length ≤ target) :
    guard_reason target reviews = .targetReached ↔ reviews.length = target := by
  unfold guard_reason
  split_ifs with ht <;> simp <;> omega

/-- A terminal result with a non-target reason and a count still under the
target satisfies the target-reached equivalence vacuously. -/
theorem non_target_exit_iff (target : Nat) (reviews : List Record)
    (reason : StopReason) (hlt : reviews.length < target)
    (hne : reason ≠ .targetReached) :
    reason = .targetReached ↔ reviews.length = target := by
  constructor
  · intro hr
    exact absurd hr hne
  · intro hl
    omega

/-- Combined behaviour of every result the paging loop returns: the session
is closed, the incoming accumulator is an initial segment of the returned
records, and whenever the incoming count respects the target, the returned
count does too and the target-reached reason characterizes an exact hit. -/
theorem scrape_loop_spec (env : Env) (digest : String → String)
    (series_name reviews_url : String) (target : Nat) :
    ∀ (fuel : Nat) (reviews : List Record) (page ce : Nat) (r : HarvestResult),
      scrape_loop env digest series_name reviews_url target fuel reviews page ce =
        some r →
      r.sessionClosed = true ∧ (∃ tail, r.records = reviews ++ tail) ∧
      (reviews.length ≤ target →
        r.records.length ≤ target ∧
          (r.reason = .targetReached ↔ r.records.length = target)) ∧
      (∀ rec ∈ r.records, rec ∈ reviews ∨
        ∃ raw, 50 ≤ raw.length ∧ rec.review_text = clean_review_text raw) := by
  intro fuel
  induction fuel with
  | zero =>
    intro reviews page ce r h
    simp only [scrape_loop] at h
    split_ifs at h with hg
    simp only [Option.some.injEq] at h
    subst h
    exact ⟨rfl, ⟨[], by simp⟩,
      fun hle => ⟨hle, guard_reason_tr_iff target reviews hle⟩,
      fun rec hrec => Or.inl hrec⟩
  | succ fuel ih =>
    intro reviews page ce r h
    rw [scrape_loop] at h
    by_cases hg : reviews.length < target ∧ page ≤ MAX_PAGES
    case neg =>
      rw [if_neg hg] at h
      simp only [Option.some.injEq] at h
      subst h
      exact ⟨rfl, ⟨[], by simp⟩,
        fun hle => ⟨hle, guard_reason_tr_iff target reviews hle⟩,
        fun rec hrec => Or.inl hrec⟩
    case pos =>
      rw [if_pos hg] at h
      by_cases hbr : (env.pages page).bodyRaise
      · rw [if_pos hbr] at h
        simp only [Option.some.injEq] at h
        subst h
        exact ⟨rfl, ⟨[], by simp⟩, (fun hle =>
          ⟨hle, non_target_exit_iff target reviews _ hg.1 (by simp)⟩),
          fun rec hrec => Or.inl hrec⟩
      · rw [if_neg hbr] at h
        by_cases hbe : (find_review_blocks (env.pages page)).isEmpty
        · rw [if_pos hbe] at h
          by_cases hstreak : MAX_EMPTY_PAGES ≤ ce + 1
          · rw [if_pos hstreak] at h
            simp only [Option.some.injEq] at h
            subst h
            exact ⟨rfl, ⟨[], by simp⟩, (fun hle =>
              ⟨hle, non_target_exit_iff target reviews _ hg.1 (by simp)⟩),
              fun rec hrec => Or.inl hrec⟩
          · rw [if_neg hstreak] at h
            cases hgt : goto_next_page (env.pages page).goto reviews_url page with
            | error e =>
              rw [hgt] at h
              simp only [Option.some.injEq] at h
              subst h
              exact ⟨rfl, ⟨[], by simp⟩, (fun hle =>
                ⟨hle, non_target_exit_iff target reviews _ hg.1 (by simp)⟩),
                fun rec hrec => Or.inl hrec⟩
            | ok pr =>
              obtain ⟨okb, page'⟩ := pr
              obtain ⟨hb, hp⟩ := goto_ok_eq _ _ _ _ _ hgt
              subst hb
              rw [hgt] at h
              simp only [if_true] at h
              exact ih reviews page' (ce + 1) r h
        · rw [if_neg hbe] at h
          obtain ⟨t0, ht0⟩ := consume_blocks_append digest series_name page target
            (find_review_blocks (env.pages page)) reviews
          by_cases htgt : target ≤
              (consume_blocks digest series_name page target
                (find_review_blocks (env.pages page)) reviews).length
          · rw [if_pos htgt] at h
            simp only [Option.some.injEq] at h
            subst h
            refine ⟨rfl, ⟨t0, ht0⟩, fun hle => ?_,
              fun rec hrec => consume_blocks_body digest series_name page target
                (find_review_blocks (env.pages page)) reviews rec hrec⟩
            have hle' := consume_blocks_le digest series_name page target
              (find_review_blocks (env.pages page)) reviews hle
            exact ⟨hle', by simp; omega⟩
          · rw [if_neg htgt] at h
            cases hgt : goto_next_page (env.pages page).goto reviews_url page with
            | error e =>
              rw [hgt] at h
              simp only [Option.some.injEq] at h
              subst h
              refine ⟨rfl, ⟨t0, ht0⟩, fun hle => ?_,
                fun rec hrec => consume_blocks_body digest series_name page target
                  (find_review_blocks (env.pages page)) reviews rec hrec⟩
              have hle' := consume_blocks_le digest series_name page target
                (find_review_blocks (env.pages page)) reviews hle
              exact ⟨hle', non_target_exit_iff target
                (consume_blocks digest series_name page target
                  (find_review_blocks (env.pages page)) reviews) .sessionError
                (by omega) (by simp)⟩
            | ok pr =>
              obtain ⟨okb, page'⟩ := pr
              obtain ⟨hb, hp⟩ := goto_ok_eq _ _ _ _ _ hgt
              subst hb
              rw [hgt] at h
              simp only [if_true] at h
              obtain ⟨hc, ⟨tail, htail⟩, hrest, hmem⟩ := ih _ page' 0 r h
              refine ⟨hc, ⟨t0 ++ tail, by rw [htail, ht0, List.append_assoc]⟩,
                (fun hle => hrest (consume_blocks_le digest series_name page target
                  (find_review_blocks (env.pages page)) reviews hle)),
                fun rec hrec => ?_⟩
              rcases hmem rec hrec with hin | hnew
              · exact consume_blocks_body digest series_name page target
                  (find_review_blocks (env.pages page)) reviews rec hin
              · exact Or.inr hnew

/-- Fuel adequacy: since every continuing iteration advances the page
counter, any fuel reaching past the page cap makes the loop return. -/
theorem scrape_loop_isSome (env : Env) (digest : String → String)
    (series_name reviews_url : String) (target : Nat) :
    ∀ (fuel : Nat) (reviews : List Record) (page ce : Nat),
      MAX_PAGES + 1 ≤ page + fuel →
      (scrape_loop env digest series_name reviews_url target fuel
        reviews page ce).isSome := by
  intro fuel
  induction fuel with
  | zero =>
    intro reviews page ce hfuel
    rw [scrape_loop, if_neg (by omega)]
    simp
  | succ fuel ih =>
    intro reviews page ce hfuel
    rw [scrape_loop]
    by_cases hg : reviews.length < target ∧ page ≤ MAX_PAGES
    case neg =>
      rw [if_neg hg]
      simp
    case pos =>
      rw [if_pos hg]
      by_cases hbr : (env.pages page).bodyRaise
      · rw [if_pos hbr]
        simp
      · rw [if_neg hbr]
        by_cases hbe : (find_review_blocks (env.pages page)).isEmpty
        · rw [if_pos hbe]
          by_cases hstreak : MAX_EMPTY_PAGES ≤ ce + 1
          · rw [if_pos hstreak]
            simp
          · rw [if_neg hstreak]
            cases hgt : goto_next_page (env.pages page).goto reviews_url page with
            | error e => simp
            | ok pr =>
              obtain ⟨okb, page'⟩ := pr
              obtain ⟨hb, hp⟩ := goto_ok_eq _ _ _ _ _ hgt
              subst hb
              subst hp
              exact ih reviews (page + 1) (ce + 1) (by omega)
        · rw [if_neg hbe]
          by_cases htgt : target ≤
              (consume_blocks digest series_name page target
                (find_review_blocks (env.pages page)) reviews).length
          · rw [if_pos htgt]
            simp
          · rw [if_neg htgt]
            cases hgt : goto_next_page (env.pages page).goto reviews_url page with
            | error e => simp
            | ok pr =>
              obtain ⟨okb, page'⟩ := pr
              obtain ⟨hb, hp⟩ := goto_ok_eq _ _ _ _ _ hgt
              subst hb
              subst hp
              exact ih _ (page + 1) 0 (by omega)

/-- When every page is quiet, the loop counts one empty page per iteration
and stops through the empty-page-streak exit, with the accumulator
untouched. -/
theorem scrape_loop_streak (env : Env) (digest : String → String)
    (series_name reviews_url : String) (target : Nat)
    (hquiet : ∀ p, quiet_page (env.pages p)) :
    ∀ (fuel : Nat) (reviews : List Record) (page ce : Nat),
      reviews.length < target → ce < MAX_EMPTY_PAGES →
      MAX_EMPTY_PAGES - ce ≤ fuel →
      page + (MAX_EMPTY_PAGES - ce) ≤ MAX_PAGES + 1 →
      scrape_loop env digest series_name reviews_url target fuel reviews page ce =
        some ⟨reviews, .emptyPageStreak, true⟩ := by
  intro fuel
  induction fuel with
  | zero =>
    intro reviews page ce h1 h2 h3 h4
    omega
  | succ fuel ih =>
    intro reviews page ce h1 h2 h3 h4
    obtain ⟨hq1, hq2, hq3⟩ := hquiet page
    rw [scrape_loop, if_pos ⟨h1, by omega⟩, if_neg (by rw [hq1]; simp), hq2]
    simp only [List.isEmpty_nil, if_true]
    by_cases hce : MAX_EMPTY_PAGES ≤ ce + 1
    · rw [if_pos hce]
    · rw [if_neg hce, goto_no_fallback _ _ _ hq3]
      exact ih reviews (page + 1) (ce + 1) h1 (by omega) (by omega) (by omega)

/-- A driver fault at the head of an iteration exits at once with the
records accumulated so far and the session closed. -/
theorem scrape_loop_fault_exit (env : Env) (digest : String → String)
    (series_name reviews_url : String) (target : Nat) (fuel : Nat)
    (reviews : List Record) (page ce : Nat)
    (hg : reviews.length < target) (hpg : page ≤ MAX_PAGES)
    (hbr : (env.pages page).bodyRaise = true) :
    scrape_loop env digest series_name reviews_url target (fuel + 1)
      reviews page ce = some ⟨reviews, .sessionError, true⟩ := by
  rw [scrape_loop, if_pos ⟨hg, hpg⟩, if_pos hbr]

/-! ## Helper lemmas about field extraction -/

/-- The expansion re-read never shortens the settled text. -/
theorem reread_text_ge (cands : List (Option String)) (cur : String) :
    cur.length ≤ (reread_text cands cur).length := by
  induction cands with
  | nil => simp [reread_text]
  | cons c rest ih =>
    cases c with
    | none => simpa [reread_text] using ih
    | some raw =>
      rw [reread_text]
      split_ifs with h
      · omega
      · exact ih

/-- The expansion re-read keeps the current text or settles on a strictly
longer stripped candidate from the list. -/
theorem reread_text_cases (cands : List (Option String)) (cur : String) :
    reread_text cands cur = cur ∨
      ∃ raw, some raw ∈ cands ∧ reread_text cands cur = pyStrip raw ∧
        cur.length < (reread_text cands cur).length := by
  induction cands with
  | nil => exact Or.inl rfl
  | cons c rest ih =>
    cases c with
    | none =>
      rw [reread_text]
      rcases ih with h | ⟨raw, hm, he, hl⟩
      · exact Or.inl h
      · exact Or.inr ⟨raw, by simp [List.mem_cons] at hm ⊢; tauto, he, hl⟩
    | some raw =>
      rw [reread_text]
      split_ifs with h
      · exact Or.inr ⟨raw, by simp, rfl, h⟩
      · rcases ih with h' | ⟨raw', hm, he, hl⟩
        · exact Or.inl h'
        · exact Or.inr ⟨raw', by simp [List.mem_cons] at hm ⊢; tauto, he, hl⟩

/-- The tag scan only produces the empty string or one of the three fixed
phrases. -/
theorem scan_tags_mem (tags : List String) :
    scan_tags tags = "" ∨ scan_tags tags = "Recommended" ∨
      scan_tags tags = "Mixed Feelings" ∨ scan_tags tags = "Not Recommended" := by
  induction tags with
  | nil => exact Or.inl rfl
  | cons raw rest ih =>
    rw [scan_tags]
    split_ifs with h0 h1 h2 h3
    · exact ih
    · exact Or.inr (Or.inr (Or.inr rfl))
    · exact Or.inr (Or.inr (Or.inl rfl))
    · exact Or.inr (Or.inl rfl)
    · exact ih

/-- A head text containing the Not Recommended phrase decides the scan. -/
theorem scan_tags_not_recommended (t : String) (rest : List String)
    (h : strContains (pyStrip t) "Not Recommended" = true) :
    scan_tags (t :: rest) = "Not Recommended" := by
  have h0 : pyStrip t ≠ "" := by
    intro h0
    rw [h0] at h
    exact absurd h (by decide)
  rw [scan_tags, if_neg h0, if_pos h]

/-- A head text containing Mixed Feelings but not the Not Recommended
phrase decides the scan as Mixed Feelings. -/
theorem scan_tags_mixed (t : String) (rest : List String)
    (hn : strContains (pyStrip t) "Not Recommended" = false)
    (hm : strContains (pyStrip t) "Mixed Feelings" = true) :
    scan_tags (t :: rest) = "Mixed Feelings" := by
  have h0 : pyStrip t ≠ "" := by
    intro h0
    rw [h0] at hm
    exact absurd hm (by decide)
  rw [scan_tags, if_neg h0, if_neg (by simp [hn]), if_pos hm]

/-- A head text containing Recommended but neither longer phrase decides
the scan as Recommended. -/
theorem scan_tags_recommended (t : String) (rest : List String)
    (hn : strContains (pyStrip t) "Not Recommended" = false)
    (hm : strContains (pyStrip t) "Mixed Feelings" = false)
    (hr : strContains (pyStrip t) "Recommended" = true) :
    scan_tags (t :: rest) = "Recommended" := by
  have h0 : pyStrip t ≠ "" := by
    intro h0
    rw [h0] at hr
    exact absurd hr (by decide)
  rw [scan_tags, if_neg h0, if_neg (by simp [hn]), if_neg (by simp [hm]), if_pos hr]

/-- The recommendation field of an accepted row is the empty string or one
of the three fixed phrases. -/
theorem parse_recommendation_mem (b : Block) (row : Row)
    (h : parse_review_block b = some row) :
    row.recommendation = "" ∨ row.recommendation = "Recommended" ∨
      row.recommendation = "Mixed Feelings" ∨
      row.recommendation = "Not Recommended" := by
  unfold parse_review_block at h
  by_cases hg : body_text b = "" ∨ (body_text b).length < 50
  · rw [if_pos hg] at h
    exact absurd h (by simp)
  · rw [if_neg hg] at h
    have hr : (if b.tagsRaise then "" else scan_tags b.tagTexts) =
        row.recommendation := congrArg Row.recommendation (Option.some.inj h)
    by_cases htr : b.tagsRaise
    · rw [if_pos htr] at hr
      exact Or.inl hr.symm
    · rw [if_neg htr] at hr
      rw [← hr]
      exact scan_tags_mem b.tagTexts

/-- An empty head query result is skipped by the scan. -/
theorem first_non_empty_cons_nil {α : Type} (rest : List (List α)) :
    first_non_empty ([] :: rest) = first_non_empty rest := by
  simp [first_non_empty]

/-- A head query result known to be empty is skipped by the scan. -/
theorem first_non_empty_cons_eq_nil {α : Type} (xs : List α)
    (rest : List (List α)) (h : xs = []) :
    first_non_empty (xs :: rest) = first_non_empty rest := by
  subst h
  simp [first_non_empty]

/-- A non-empty head query result is returned by the scan. -/
theorem first_non_empty_cons_ne {α : Type} (xs : List α)
    (rest : List (List α)) (h : xs ≠ []) :
    first_non_empty (xs :: rest) = xs := by
  cases xs with
  | nil => exact absurd rfl h
  | cons a l => simp [first_non_empty]

/-! ## The claims -/

/-- C1: a completed harvest never returns more records than the target:
accumulation stops consuming further blocks of the current page as soon as
the count reaches the target, so the returned list length is at most the
target. -/
theorem harvest_never_exceeds_target (env : Env) (digest : String → String)
    (series_name reviews_url : String) (target_reviews : Nat)
    (r : HarvestResult)
    (h : scrape_reviews_for_series env digest series_name reviews_url
      target_reviews = some r) :
    r.records.length ≤ target_reviews := by
  unfold scrape_reviews_for_series at h
  split_ifs at h with hi
  · simp only [Option.some.injEq] at h
    subst h
    simp
  · exact ((scrape_loop_spec env digest series_name reviews_url target_reviews
      (MAX_PAGES + 1) [] 1 0 r h).2.2.1 (by simp)).1

/-- C1 witness: a concrete one-page run with target 2 hits the bound. -/
theorem harvest_never_exceeds_target_witness :
    (⟨[goodRecord], .sessionError, true⟩ : HarvestResult).records.length ≤ 2 :=
  harvest_never_exceeds_target envOneGood digest0 "Naruto" "u" 2 _ (by decide)

/-- C2: every harvest run returns: the page counter grows on every
continuing iteration, so the page cap bounds the loop; and when no page
ever yields a block and nothing raises, twelve consecutive empty
iterations stop the run through the empty-page-streak exit. -/
theorem harvest_terminates (env : Env) (digest : String → String)
    (series_name reviews_url : String) (target_reviews : Nat) :
    (scrape_reviews_for_series env digest series_name reviews_url
      target_reviews).isSome ∧
    (0 < target_reviews → env.initRaise = false →
      (∀ p, quiet_page (env.pages p)) →
      scrape_reviews_for_series env digest series_name reviews_url
        target_reviews = some ⟨[], .emptyPageStreak, true⟩) := by
  constructor
  · unfold scrape_reviews_for_series
    split_ifs with hi
    · simp
    · exact scrape_loop_isSome env digest series_name reviews_url
        target_reviews (MAX_PAGES + 1) [] 1 0 (by omega)
  · intro ht hi hq
    unfold scrape_reviews_for_series
    rw [if_neg (by simp [hi])]
    exact scrape_loop_streak env digest series_name reviews_url target_reviews
      hq (MAX_PAGES + 1) [] 1 0 (by simpa using ht) (by decide) (by decide)
      (by decide)

/-- C3: with a positive target, a harvest stops through the target-reached
exit exactly when the returned record count equals the target; every other
exit leaves the count strictly below the target. -/
theorem target_reached_iff (env : Env) (digest : String → String)
    (series_name reviews_url : String) (target_reviews : Nat)
    (r : HarvestResult) (ht : 0 < target_reviews)
    (h : scrape_reviews_for_series env digest series_name reviews_url
      target_reviews = some r) :
    r.reason = .targetReached ↔ r.records.length = target_reviews := by
  unfold scrape_reviews_for_series at h
  split_ifs at h with hi
  · simp only [Option.some.injEq] at h
    subst h
    simp
    omega
  · exact ((scrape_loop_spec env digest series_name reviews_url target_reviews
      (MAX_PAGES + 1) [] 1 0 r h).2.2.1 (by simp)).2

/-- C3 witness: a concrete run that reaches target 1 on page 1. -/
theorem target_reached_iff_witness :
    ((⟨[goodRecord], .targetReached, true⟩ : HarvestResult).reason =
        .targetReached ↔
      (⟨[goodRecord], .targetReached, true⟩ : HarvestResult).records.length = 1) :=
  target_reached_iff envOneGood digest0 "Naruto" "u" 1 _ (by decide) (by decide)

/-- C4 counterexample: a completed harvest whose single record stores a
review text of 3 characters: the 52-character body passes the 50-character
gate, and the cleaning step that runs after the gate collapses its interior
whitespace. -/
theorem cleaned_record_under_50_cex :
    ∃ r, scrape_reviews_for_series envGappy digest0 "Naruto" "u" 1 = some r ∧
      ∃ rec, rec ∈ r.records ∧ rec.review_text.length < 50 :=
  ⟨⟨[gappyRecord], .targetReached, true⟩, by decide, gappyRecord, by decide,
    by decide⟩

/-- C4 as amended: the 50-character gate holds for the body text before
cleaning: every record a completed harvest emits stores the cleaning of a
body text of at least 50 characters, and that stored value itself can be
shorter than 50. -/
theorem record_body_gate_precleaning (env : Env) (digest : String → String)
    (series_name reviews_url : String) (target_reviews : Nat)
    (r : HarvestResult) (rec : Record)
    (h : scrape_reviews_for_series env digest series_name reviews_url
      target_reviews = some r)
    (hrec : rec ∈ r.records) :
    ∃ raw, 50 ≤ raw.length ∧ rec.review_text = clean_review_text raw := by
  unfold scrape_reviews_for_series at h
  split_ifs at h with hi
  · simp only [Option.some.injEq] at h
    subst h
    simp at hrec
  · rcases (scrape_loop_spec env digest series_name reviews_url target_reviews
      (MAX_PAGES + 1) [] 1 0 r h).2.2.2 rec hrec with hin | hraw
    · simp at hin
    · exact hraw

/-- C4 amended witness: the gappy record of the concrete run comes from the
52-character body. -/
theorem record_body_gate_precleaning_witness :
    ∃ raw, 50 ≤ raw.length ∧ gappyRecord.review_text = clean_review_text raw :=
  record_body_gate_precleaning envGappy digest0 "Naruto" "u" 1
    ⟨[gappyRecord], .targetReached, true⟩ gappyRecord (by decide) (by decide)

/-- C5: the block locator returns exactly the match set of the first of its
four ordered queries that yields at least one element, and the empty
sequence when every query yields nothing; it never unions query results. -/
theorem find_blocks_first_query (pe : PageEnv) :
    (find_review_blocks pe = pe.q1 ∧ pe.q1 ≠ []) ∨
    (find_review_blocks pe = pe.q2 ∧ pe.q1 = [] ∧ pe.q2 ≠ []) ∨
    (find_review_blocks pe = pe.q3 ∧ pe.q1 = [] ∧ pe.q2 = [] ∧ pe.q3 ≠ []) ∨
    (find_review_blocks pe = pe.q4 ∧ pe.q1 = [] ∧ pe.q2 = [] ∧ pe.q3 = [] ∧
      pe.q4 ≠ []) ∨
    (find_review_blocks pe = [] ∧ pe.q1 = [] ∧ pe.q2 = [] ∧ pe.q3 = [] ∧
      pe.q4 = []) := by
  by_cases h1 : pe.q1 = []
  case neg => exact Or.inl ⟨first_non_empty_cons_ne _ _ h1, h1⟩
  case pos =>
  have e1 : find_review_blocks pe = first_non_empty [pe.q2, pe.q3, pe.q4] :=
    first_non_empty_cons_eq_nil _ _ h1
  by_cases h2 : pe.q2 = []
  case neg =>
    exact Or.inr (Or.inl ⟨e1.trans (first_non_empty_cons_ne _ _ h2), h1, h2⟩)
  case pos =>
  have e2 : find_review_blocks pe = first_non_empty [pe.q3, pe.q4] :=
    e1.trans (first_non_empty_cons_eq_nil _ _ h2)
  by_cases h3 : pe.q3 = []
  case neg =>
    exact Or.inr (Or.inr (Or.inl
      ⟨e2.trans (first_non_empty_cons_ne _ _ h3), h1, h2, h3⟩))
  case pos =>
  have e3 : find_review_blocks pe = first_non_empty [pe.q4] :=
    e2.trans (first_non_empty_cons_eq_nil _ _ h3)
  by_cases h4 : pe.q4 = []
  case neg =>
    exact Or.inr (Or.inr (Or.inr (Or.inl
      ⟨e3.trans (first_non_empty_cons_ne _ _ h4), h1, h2, h3, h4⟩)))
  case pos =>
    exact Or.inr (Or.inr (Or.inr (Or.inr
      ⟨e3.trans (first_non_empty_cons_eq_nil _ _ h4), h1, h2, h3, h4⟩)))

/-- C6: the targeted expansion re-read fires exactly when the first-pass
body text is empty, or carries a truncation marker under 400 characters, or
is under 120 characters; the settled text is never shorter than the first
pass, and when it differs it is a strictly longer stripped re-read
candidate. The concrete conjunct replays the scenario of a 13-character
truncated body expanding to 600 characters. -/
theorem body_text_expansion_policy :
    (∀ b : Block,
      (needs_expand (first_pass_text b.textPass1) = true ↔
        (first_pass_text b.textPass1 = "" ∨
          (strContains (first_pass_text b.textPass1) "..." = true ∧
            (first_pass_text b.textPass1).length < 400) ∨
          (first_pass_text b.textPass1).length < 120)) ∧
      (needs_expand (first_pass_text b.textPass1) = false →
        body_text b = first_pass_text b.textPass1) ∧
      (needs_expand (first_pass_text b.textPass1) = true →
        (first_pass_text b.textPass1).length ≤ (body_text b).length ∧
        (body_text b = first_pass_text b.textPass1 ∨
          ∃ raw, some raw ∈ b.textPass2 ∧ body_text b = pyStrip raw ∧
            (first_pass_text b.textPass1).length < (body_text b).length))) ∧
    body_text truncBlock = expandedText := by
  constructor
  · intro b
    refine ⟨?_, fun hne => ?_, fun he => ?_⟩
    · simp [needs_expand, or_assoc]
    · simp only [body_text, hne, Bool.false_eq_true, if_false]
    · simp only [body_text, he, if_true]
      exact ⟨reread_text_ge b.textPass2 _, reread_text_cases b.textPass2 _⟩
  · decide

/-- C7: whenever _goto_next_page returns instead of raising, the result is
the pair of true and the incremented page, on the progressive-control path
and on the URL-parameter fallback alike; a false first component is never
produced. -/
theorem goto_returns_next_page (g : GotoEnv) (reviews_url : String)
    (page : Nat) (b : Bool) (p : Nat)
    (h : goto_next_page g reviews_url page = .ok (b, p)) :
    b = true ∧ p = page + 1 :=
  goto_ok_eq g reviews_url page b p h

/-- C7 witness: the fallback path from page 3 returns true and page 4. -/
theorem goto_returns_next_page_witness : true = true ∧ 4 = 3 + 1 :=
  goto_returns_next_page gotoOk "u" 3 true 4 rfl

/-- C8: the recommendation field is decided by scanning the tag elements
for the three fixed phrases with the fixed priority Not Recommended over
Mixed Feelings over Recommended when phrases co-occur in the deciding
element, and an accepted row always carries one of the three phrases or the
empty absent value. -/
theorem recommendation_enum_priority :
    (∀ tags : List String,
      scan_tags tags = "" ∨ scan_tags tags = "Recommended" ∨
        scan_tags tags = "Mixed Feelings" ∨
        scan_tags tags = "Not Recommended") ∧
    (∀ (t : String) (rest : List String),
      (strContains (pyStrip t) "Not Recommended" = true →
        scan_tags (t :: rest) = "Not Recommended") ∧
      (strContains (pyStrip t) "Not Recommended" = false →
        strContains (pyStrip t) "Mixed Feelings" = true →
        scan_tags (t :: rest) = "Mixed Feelings") ∧
      (strContains (pyStrip t) "Not Recommended" = false →
        strContains (pyStrip t) "Mixed Feelings" = false →
        strContains (pyStrip t) "Recommended" = true →
        scan_tags (t :: rest) = "Recommended")) ∧
    (∀ (b : Block) (row : Row), parse_review_block b = some row →
      row.recommendation = "" ∨ row.recommendation = "Recommended" ∨
        row.recommendation = "Mixed Feelings" ∨
        row.recommendation = "Not Recommended") :=
  ⟨scan_tags_mem,
    fun t rest =>
      ⟨scan_tags_not_recommended t rest,
        scan_tags_mixed t rest,
        scan_tags_recommended t rest⟩,
    parse_recommendation_mem⟩

/-- C9: whatever the paging loop returns, the session is closed and the
records accumulated before the call are preserved at the front of the
result; a driver fault at the head of an iteration in particular returns
exactly the accumulated records with the session-error classification. -/
theorem partial_records_preserved (env : Env) (digest : String → String)
    (series_name reviews_url : String) (target : Nat) (fuel : Nat)
    (reviews : List Record) (page ce : Nat) (r : HarvestResult)
    (h : scrape_loop env digest series_name reviews_url target fuel reviews
      page ce = some r) :
    r.sessionClosed = true ∧ (∃ tail, r.records = reviews ++ tail) ∧
    ((env.pages page).bodyRaise = true → reviews.length < target →
      page ≤ MAX_PAGES → 0 < fuel →
      r = ⟨reviews, .sessionError, true⟩) := by
  obtain ⟨h1, h2, _, _⟩ := scrape_loop_spec env digest series_name reviews_url
    target fuel reviews page ce r h
  refine ⟨h1, h2, fun hbr hlt hpg hf => ?_⟩
  cases fuel with
  | zero => omega
  | succ fuel =>
    rw [scrape_loop_fault_exit env digest series_name reviews_url target fuel
      reviews page ce hlt hpg hbr] at h
    exact (Option.some.inj h).symm

/-- C9 witness: a loop entered with one accumulated record that faults at
once returns that record, closed, with the session-error classification. -/
theorem partial_records_preserved_witness :
    (⟨[goodRecord], .sessionError, true⟩ : HarvestResult).sessionClosed = true ∧
    (∃ tail, (⟨[goodRecord], .sessionError, true⟩ : HarvestResult).records =
      [goodRecord] ++ tail) ∧
    ((envFault.pages 1).bodyRaise = true → ([goodRecord] : List Record).length < 5 →
      1 ≤ MAX_PAGES → 0 < 1 →
      (⟨[goodRecord], .sessionError, true⟩ : HarvestResult) =
        ⟨[goodRecord], .sessionError, true⟩) :=
  partial_records_preserved envFault digest0 "Naruto" "u" 5 1 [goodRecord] 1 0
    _ (by decide)

/-- C10: the review id is a function of the series name and the first 120
characters of the review text alone: two texts of the same series agreeing
on that prefix get the same id for any digest function, however they differ
beyond it. -/
theorem review_id_prefix_only (digest : String → String)
    (series_name t1 t2 : String) (h : pyTake t1 120 = pyTake t2 120) :
    review_id digest series_name t1 = review_id digest series_name t2 := by
  unfold review_id
  rw [h]

/-- C10 witness: two 128-character texts differing only beyond character
120 get the same id. -/
theorem review_id_prefix_only_witness :
    review_id digest0 "Naruto" longTextA = review_id digest0 "Naruto" longTextB :=
  review_id_prefix_only digest0 "Naruto" longTextA longTextB (by decide)

end Scrape
